import Mathlib

/-!
Verification model of the Quick Rewriter utility (src/quick_rewriter.py).

The Python source is shallowly embedded: strings are `List Char`, the
`str.format` call of `_combine_prompt` is modelled by a fuel-based scanner
(`pyFormatAux`) with a three-way outcome that is sound on what it asserts
and silent outside its fragment, `str.strip()` by `pyStrip`, the `in`
substring operator by `containsSub`, and the JSON-backed stores by small
state machines whose states are the relevant shapes of the backing file.
All definitions are computable so that concrete inputs evaluate by
`decide`.
-/

/-- Whitespace predicate used by CPython `str.strip()` (ASCII fragment:
space, tab, newline, carriage return, vertical tab, form feed). -/
def isPySpace (c : Char) : Bool :=
  c = ' ' || c = '\t' || c = '\n' || c = '\r' || c = '\x0b' || c = '\x0c'

/-- Model of CPython `str.lstrip()`. -/
def pyLstrip (l : List Char) : List Char := l.dropWhile isPySpace

/-- Model of CPython `str.rstrip()`. -/
def pyRstrip (l : List Char) : List Char := (l.reverse.dropWhile isPySpace).reverse

/-- Model of CPython `str.strip()` (strip both ends; realised as an
lstrip followed by an rstrip, which yields the same string). -/
def pyStrip (l : List Char) : List Char := pyRstrip (pyLstrip l)

/-- Model of the CPython substring operator `needle in hay`. -/
def containsSub (hay needle : List Char) : Bool :=
  match hay with
  | [] => needle.isEmpty
  | _ :: t => needle.isPrefixOf hay || containsSub t needle

/-- The text-insertion marker scanned for by `_combine_prompt`
(the literal characters of the string written in Python). -/
def marker : List Char := "\x7btext\x7d".data

/-- The fixed no-commentary directive `strict_suffix` appended by
`_combine_prompt` (src/quick_rewriter.py line 114). -/
def strictSuffix : List Char :=
  "\n\nIMPORTANT: Output ONLY the rewritten text. Do not add any explanations, preambles, notes, or surrounding text. Just the result.".data

/-- A blank-line separator as produced by the source's formatted strings. -/
def blankLine : List Char := "\n\n".data

/-- Outcome of the modelled `template.format(text=captured)` call:
`ok r` — the call returns exactly `r`; `raises` — the call certainly
raises; `unmodelled` — the template uses format features outside the
modelled fragment, about which no theorem asserts anything. -/
inductive FormatOutcome where
  | ok (r : List Char) : FormatOutcome
  | raises : FormatOutcome
  | unmodelled : FormatOutcome
deriving DecidableEq

/-- Prepend already-rendered output to a format outcome. -/
def fmtPrepend (pre : List Char) : FormatOutcome → FormatOutcome
  | .ok r => .ok (pre ++ r)
  | .raises => .raises
  | .unmodelled => .unmodelled

/-- Model of CPython `template.format(text=captured)`, sound in both
asserted directions.  `ok r` is produced only for templates built from
literal text, doubled-brace escapes, and plain replacement fields named
exactly `text`; on those CPython returns exactly `r`.  `raises` is
produced only where CPython certainly raises: an unclosed or lone brace
(ValueError), or a plain field — one whose content has none of the
characters bang, colon, open bracket, dot, open brace — whose name is not
`text` (KeyError; IndexError for empty or numeric names); such a field is
reached because every construct before it is modelled and succeeds, and a
reached field with an unknown plain name always raises.  Any field
carrying a conversion, a format spec, indexing, attribute access, or a
nested brace makes the whole template `unmodelled`: CPython may succeed
there (for attribute access even with machine-dependent output), so the
model refuses to classify it rather than misreport it.  `fuel` bounds the
recursion; `pyFormat` supplies `t.length`, always sufficient because each
step consumes at least one character, so the fuel-exhaustion arm
(conservatively `unmodelled`) is unreachable. -/
def pyFormatAux (c : List Char) : Nat → List Char → FormatOutcome
  | _, [] => .ok []
  | 0, _ :: _ => .unmodelled
  | _ + 1, [a] =>
    if a = '\x7b' then .raises
    else if a = '\x7d' then .raises
    else .ok [a]
  | fuel + 1, a :: b :: rest =>
    if a = '\x7b' then
      if b = '\x7b' then fmtPrepend ['\x7b'] (pyFormatAux c fuel rest)
      else
        let fld := (b :: rest).takeWhile (fun ch => ch ≠ '\x7d')
        if fld.length = (b :: rest).length then .raises
        else if fld.any (fun ch =>
            ch = '!' || ch = ':' || ch = '[' || ch = '.' || ch = '\x7b') then .unmodelled
        else if fld = ['t', 'e', 'x', 't'] then
          fmtPrepend c (pyFormatAux c fuel ((b :: rest).drop (fld.length + 1)))
        else .raises
    else if a = '\x7d' then
      if b = '\x7d' then fmtPrepend ['\x7d'] (pyFormatAux c fuel rest)
      else .raises
    else fmtPrepend [a] (pyFormatAux c fuel (b :: rest))

/-- `pyFormat c t` is the three-way outcome of
`template.format(text=captured)` described at `pyFormatAux`. -/
def pyFormat (c t : List Char) : FormatOutcome := pyFormatAux c t.length t

/-- Whether the format scan of `t` reaches an actual replacement field
(that is, an unescaped opening brace). -/
def hasField : List Char → Bool
  | [] => false
  | [a] => if a = '\x7b' then true else false
  | a :: b :: rest =>
    if a = '\x7b' then (if b = '\x7b' then hasField rest else true)
    else if a = '\x7d' then (if b = '\x7d' then hasField rest else false)
    else hasField (b :: rest)

/-- The rendered output preceding the first replacement field of `t`
(escaped braces already collapsed).  This is the position at which
`str.format` inserts the captured text. -/
def prefixBeforeField : List Char → List Char
  | [] => []
  | [a] => if a = '\x7b' then [] else [a]
  | a :: b :: rest =>
    if a = '\x7b' then (if b = '\x7b' then '\x7b' :: prefixBeforeField rest else [])
    else if a = '\x7d' then
      (if b = '\x7d' then '\x7d' :: prefixBeforeField rest else [a])
    else a :: prefixBeforeField (b :: rest)

/-- Embedding of `_combine_prompt` (src/quick_rewriter.py lines 110-123).
`template or ""` is the identity on strings, so it is dropped.  The
`.unmodelled` arm needs a value for totality and arbitrarily mirrors the
fallback; no theorem depends on it — every statement about the format
branch hypothesises a `.ok` or `.raises` outcome, on which the model is
sound. -/
def combinePrompt (captured instruction : List Char) : List Char :=
  let template := instruction
  if containsSub template marker = true then
    match pyFormat captured template with
    | .ok r => r ++ strictSuffix
    | .raises => template ++ blankLine ++ captured ++ strictSuffix
    | .unmodelled => template ++ blankLine ++ captured ++ strictSuffix
  else
    pyStrip (pyStrip template ++ blankLine ++ captured) ++ strictSuffix

/-- The parsed JSON dictionary `message` of one candidate choice;
`content = none` models both an absent key and an explicit null. -/
structure ApiMessage where
  content : Option (List Char)
deriving DecidableEq

/-- One element of the response's `choices` list. -/
structure ApiChoice where
  message : Option ApiMessage
deriving DecidableEq

/-- The parsed JSON body of an HTTP-successful chat-completion response;
`choices = none` models an absent (or null) `choices` key. -/
structure ApiResponse where
  choices : Option (List ApiChoice)
deriving DecidableEq

/-- `choices[0].get("message", \x7b\x7d).get("content", "")` for one choice. -/
def choiceContent (c : ApiChoice) : List Char :=
  ((c.message.getD ⟨none⟩).content).getD []

/-- Embedding of the response-extraction tail of `call_openrouter_api`
(src/quick_rewriter.py lines 149-156): empty or missing `choices` raises
a no-choices error, empty first content raises an empty-content error,
otherwise the first choice's content is returned unchanged. -/
def extractResponseContent (r : ApiResponse) : Except (List Char) (List Char) :=
  match r.choices.getD [] with
  | [] => .error "No choices returned from OpenRouter.".data
  | c :: _ =>
    if choiceContent c = [] then .error "Empty response content from OpenRouter.".data
    else .ok (choiceContent c)

/-- The placeholder sentinel written into a fresh config file. -/
def placeholderKey : List Char := "YOUR_OPENROUTER_API_KEY_HERE".data

/-- The settings record: `apiKey = none` models a config dictionary with
no `api_key` entry (`cfg.get("api_key", "")` then yields `""`). -/
structure Config where
  apiKey : Option (List Char)
deriving DecidableEq

/-- `cfg.get("api_key", "").strip()` from `call_openrouter_api`. -/
def effectiveApiKey (cfg : Config) : List Char := pyStrip (cfg.apiKey.getD [])

/-- Observable outcome of the front half of `call_openrouter_api`:
either the RuntimeError raised before any network activity, or the HTTP
request that is issued (identified by its final prompt payload). -/
inductive ApiCallResult where
  | configError (msg : List Char) : ApiCallResult
  | httpRequest (payload : List Char) : ApiCallResult
deriving DecidableEq

/-- Embedding of the credential guard and dispatch of `call_openrouter_api`
(src/quick_rewriter.py lines 126-147). -/
def callOpenrouterApi (cfg : Config) (captured instruction : List Char) : ApiCallResult :=
  if effectiveApiKey cfg = [] ∨ effectiveApiKey cfg = placeholderKey then
    .configError "OpenRouter API key missing. Set it in Settings.".data
  else
    .httpRequest (combinePrompt captured instruction)

/-- The network requests actually issued for one call: none when the
credential guard raises, exactly one POST otherwise. -/
def issuedNetworkRequests (cfg : Config) (captured instruction : List Char) : List (List Char) :=
  match callOpenrouterApi cfg captured instruction with
  | .configError _ => []
  | .httpRequest p => [p]

/-- States of the `config.json` backing file that `load_config`
distinguishes: absent, present but not parsable as JSON, or parsed into
a settings record. -/
inductive ConfigFile where
  | absent : ConfigFile
  | unparsable : ConfigFile
  | parsed (cfg : Config) : ConfigFile
deriving DecidableEq

/-- The default record `\x7b"api_key": placeholder\x7d` created on recovery. -/
def defaultConfig : Config := ⟨some placeholderKey⟩

/-- Embedding of `load_config` (src/quick_rewriter.py lines 41-54):
returns the loaded record and the file state afterwards.  Missing or
corrupt files are rewritten with the default via `save_config`. -/
def load_config : ConfigFile → Config × ConfigFile
  | .absent => (defaultConfig, .parsed defaultConfig)
  | .unparsable => (defaultConfig, .parsed defaultConfig)
  | .parsed cfg => (cfg, .parsed cfg)

/-- One stored prompt template: a `\x7b"name": ..., "prompt": ...\x7d` record. -/
structure PromptEntry where
  name : List Char
  prompt : List Char
deriving DecidableEq

/-- The two built-in templates of `_default_prompts`
(src/quick_rewriter.py lines 63-79). -/
def defaultPrompts : List PromptEntry :=
  [⟨"Professional Tone".data,
    "Rewrite the following text in a clear, formal, and professional business tone. Output ONLY the rewritten text with no preamble, explanation, or notes:\n\n\x7btext\x7d".data⟩,
   ⟨"Fix Grammar".data,
    "Correct any spelling and grammar mistakes in the following text. Output ONLY the corrected text with no explanations or notes:\n\n\x7btext\x7d".data⟩]

/-- States of the `prompts.json` backing file that `load_prompts`
distinguishes: absent, unparsable, parsed to a JSON list of records, or
parsed to JSON whose top-level value is not a list. -/
inductive PromptsFile where
  | absent : PromptsFile
  | unparsable : PromptsFile
  | parsedList (ps : List PromptEntry) : PromptsFile
  | parsedNonList : PromptsFile
deriving DecidableEq

/-- Embedding of `load_prompts` (src/quick_rewriter.py lines 82-97):
returns the loaded list and the file state afterwards.  Only the absent
and unparsable branches call `save_prompts`; the parsed-but-not-a-list
branch returns the defaults without touching the file. -/
def load_prompts : PromptsFile → List PromptEntry × PromptsFile
  | .absent => (defaultPrompts, .parsedList defaultPrompts)
  | .unparsable => (defaultPrompts, .parsedList defaultPrompts)
  | .parsedList ps => (ps, .parsedList ps)
  | .parsedNonList => (defaultPrompts, .parsedNonList)

/-- Keys of the dictionary comprehension
`\x7bp["name"]: p["prompt"] for p in prompts\x7d` in CPython key order:
first occurrence of each name, in insertion order. -/
def dictKeys (ps : List PromptEntry) : List (List Char) :=
  ps.foldl (fun acc p => if p.name ∈ acc then acc else acc ++ [p.name]) []

/-- Lookup in that dictionary: the value of the LAST entry bearing the
name wins, as later comprehension iterations overwrite earlier ones. -/
def dictGet (ps : List PromptEntry) (k : List Char) : Option (List Char) :=
  (ps.reverse.find? (fun p => p.name == k)).map (fun p => p.prompt)

/-- CPython `str.lower` on the ASCII names used here. -/
def pyLower (s : List Char) : List Char := s.map Char.toLower

/-- Lexicographic code-point comparison, as CPython compares strings. -/
def lexLe (a b : List Char) : Bool :=
  match a, b with
  | [], _ => true
  | _ :: _, [] => false
  | x :: xs, y :: ys => if x = y then lexLe xs ys else decide (x.toNat < y.toNat)

/-- The sort key `lambda s: s.lower()` of `PromptWindow.__init__`. -/
def nameLe (a b : List Char) : Bool := lexLe (pyLower a) (pyLower b)

/-- Stable insertion of a name into an already sorted list. -/
def insertSorted (x : List Char) : List (List Char) → List (List Char)
  | [] => [x]
  | y :: ys => if nameLe x y = true then x :: y :: ys else y :: insertSorted x ys

/-- Stable sort modelling CPython `sorted(names, key=lambda s: s.lower())`. -/
def sortNames : List (List Char) → List (List Char)
  | [] => []
  | x :: xs => insertSorted x (sortNames xs)

/-- `self.sorted_prompt_names` (src/quick_rewriter.py line 510): the
display and navigation order of the picker. -/
def sortedPromptNames (ps : List PromptEntry) : List (List Char) :=
  sortNames (dictKeys ps)

/-- The template `PromptWindow._submit` dispatches for highlighted index
`i` (src/quick_rewriter.py lines 754-763): it indexes
`list(self.name_to_prompt.keys())` — insertion order — and returns `none`
when the index is out of range (the handler returns without dispatch). -/
def submitDispatchedTemplate (ps : List PromptEntry) (i : Nat) : Option (List Char) :=
  match (dictKeys ps)[i]? with
  | some name => some ((dictGet ps name).getD [])
  | none => none

/-- The name shown highlighted at index `i`, taken from the
case-insensitively sorted display list. -/
def highlightedName (ps : List PromptEntry) (i : Nat) : Option (List Char) :=
  (sortedPromptNames ps)[i]?

/-- The template belonging to the on-screen highlighted name. -/
def highlightedTemplate (ps : List PromptEntry) (i : Nat) : Option (List Char) :=
  (highlightedName ps i).map (fun n => (dictGet ps n).getD [])

/-- Paste-relevant state of one request cycle: the one-shot guard
`self._paste_executed` (initialised False at src/quick_rewriter.py line
515) and the number of simulated Ctrl+V keystroke sequences issued. -/
structure PasteState where
  pasteExecuted : Bool
  pasteKeystrokes : Nat
deriving DecidableEq

/-- Fresh per-cycle state created by `PromptWindow.__init__`. -/
def initPasteState : PasteState := ⟨false, 0⟩

/-- Embedding of `PromptWindow._auto_paste` (src/quick_rewriter.py lines
841-854): the guard is checked and set before the keystroke is issued. -/
def autoPaste (s : PasteState) : PasteState :=
  if s.pasteExecuted then s
  else { pasteExecuted := true, pasteKeystrokes := s.pasteKeystrokes + 1 }

lemma dropWhile_head_false {p : Char → Bool} :
    ∀ {l : List Char} {a : Char} {t : List Char}, l.dropWhile p = a :: t → p a = false := by
  intro l
  induction l with
  | nil => intro a t h; simp at h
  | cons x xs ih =>
    intro a t h
    by_cases hx : p x = true
    · rw [List.dropWhile_cons_of_pos hx] at h
      exact ih h
    · rw [List.dropWhile_cons_of_neg hx] at h
      cases h
      simpa using hx

lemma dropWhile_idem {p : Char → Bool} (l : List Char) :
    (l.dropWhile p).dropWhile p = l.dropWhile p := by
  cases h : l.dropWhile p with
  | nil => simp
  | cons a t =>
    rw [List.dropWhile_cons_of_neg (by simp [dropWhile_head_false h])]

lemma dropWhile_append_of_all {p : Char → Bool} {l₁ : List Char} (l₂ : List Char)
    (h : ∀ x ∈ l₁, p x = true) : (l₁ ++ l₂).dropWhile p = l₂.dropWhile p := by
  simp [List.dropWhile_append, List.dropWhile_eq_nil_iff.mpr h]

lemma dropWhile_append_of_not_nil {p : Char → Bool} {l₁ : List Char} (l₂ : List Char)
    (h : l₁.dropWhile p ≠ []) : (l₁ ++ l₂).dropWhile p = l₁.dropWhile p ++ l₂ := by
  rw [List.dropWhile_append]
  simp [List.isEmpty_iff, h]

lemma pyRstrip_append {y : List Char} (x : List Char)
    (h : ¬ ∀ ch ∈ y, isPySpace ch = true) : pyRstrip (x ++ y) = x ++ pyRstrip y := by
  have hy : y.reverse.dropWhile isPySpace ≠ [] := by
    intro hnil
    exact h (by intro ch hch; exact List.dropWhile_eq_nil_iff.mp hnil ch (by simpa using hch))
  simp [pyRstrip, List.reverse_append, dropWhile_append_of_not_nil _ hy]

lemma pyRstrip_append_all {y : List Char} (x : List Char)
    (h : ∀ ch ∈ y, isPySpace ch = true) : pyRstrip (x ++ y) = pyRstrip x := by
  simp only [pyRstrip, List.reverse_append]
  rw [dropWhile_append_of_all _ (by intro ch hch; exact h ch (by simpa using hch))]

lemma pyLstrip_append_all {x : List Char} (y : List Char)
    (h : ∀ ch ∈ x, isPySpace ch = true) : pyLstrip (x ++ y) = pyLstrip y := by
  simp only [pyLstrip]
  exact dropWhile_append_of_all _ h

lemma pyRstrip_idem (l : List Char) : pyRstrip (pyRstrip l) = pyRstrip l := by
  simp [pyRstrip, dropWhile_idem]

lemma pyStrip_head_false {t : List Char} {a : Char} {t' : List Char}
    (h : pyStrip t = a :: t') : isPySpace a = false := by
  have h1 := List.takeWhile_append_dropWhile (p := isPySpace) (l := (pyLstrip t).reverse)
  have h2 := congrArg List.reverse h1
  simp only [List.reverse_append, List.reverse_reverse] at h2
  have h3 : pyStrip t ++ ((pyLstrip t).reverse.takeWhile isPySpace).reverse = pyLstrip t := h2
  rw [h] at h3
  exact dropWhile_head_false (p := isPySpace) (l := t) (by simpa [pyLstrip] using h3.symm)

lemma blank_all_space : ∀ ch ∈ blankLine, isPySpace ch = true := by decide

lemma pyLstrip_cons_append {a : Char} (ha : isPySpace a = false) (T' z : List Char) :
    pyLstrip ((a :: T') ++ z) = (a :: T') ++ z := by
  simp only [List.cons_append, pyLstrip]
  rw [List.dropWhile_cons_of_neg (by simp [ha])]

lemma combinePrompt_noMarker (c t : List Char) (h : containsSub t marker = false) :
    ∃ s1 s2, combinePrompt c t = pyStrip t ++ s1 ++ pyStrip c ++ s2 ∧
      (pyStrip t ≠ [] → blankLine <+: s1) := by
  have hcombine : combinePrompt c t = pyStrip (pyStrip t ++ blankLine ++ c) ++ strictSuffix := by
    simp [combinePrompt, h]
  by_cases hc : ∀ x ∈ c, isPySpace x = true
  · have hlc : pyLstrip c = [] := List.dropWhile_eq_nil_iff.mpr hc
    have hpc : pyStrip c = [] := by simp [pyStrip, hlc, pyRstrip]
    cases hT : pyStrip t with
    | nil =>
      rw [hT] at hcombine
      have hinner : pyStrip (([] : List Char) ++ blankLine ++ c) = [] := by
        show pyRstrip (pyLstrip (([] : List Char) ++ blankLine ++ c)) = []
        rw [List.nil_append, pyLstrip_append_all _ blank_all_space, hlc]
        simp [pyRstrip]
      rw [hinner] at hcombine
      refine ⟨[], strictSuffix, ?_, fun hne => absurd rfl hne⟩
      simpa [hpc] using hcombine
    | cons a T' =>
      rw [hT] at hcombine
      have hba : ∀ ch ∈ blankLine ++ c, isPySpace ch = true := by
        intro ch hch
        rcases List.mem_append.mp hch with hb | hcc
        · exact blank_all_space ch hb
        · exact hc ch hcc
      have hpr : pyRstrip (a :: T') = a :: T' := by
        rw [← hT]
        show pyRstrip (pyRstrip (pyLstrip t)) = pyRstrip (pyLstrip t)
        exact pyRstrip_idem _
      have hinner : pyStrip ((a :: T') ++ blankLine ++ c) = a :: T' := by
        show pyRstrip (pyLstrip ((a :: T') ++ blankLine ++ c)) = a :: T'
        rw [List.append_assoc, pyLstrip_cons_append (pyStrip_head_false hT) T' (blankLine ++ c)]
        rw [pyRstrip_append_all _ hba, hpr]
      rw [hinner] at hcombine
      refine ⟨strictSuffix, [], ?_, fun _ => by decide⟩
      simpa [hpc] using hcombine
  · cases hT : pyStrip t with
    | nil =>
      rw [hT] at hcombine
      have hinner : pyStrip (([] : List Char) ++ blankLine ++ c) = pyStrip c := by
        show pyRstrip (pyLstrip (([] : List Char) ++ blankLine ++ c)) = pyStrip c
        rw [List.nil_append, pyLstrip_append_all _ blank_all_space]
        rfl
      rw [hinner] at hcombine
      exact ⟨[], strictSuffix, by simpa using hcombine, fun hne => absurd rfl hne⟩
    | cons a T' =>
      rw [hT] at hcombine
      have hxl : ¬ ∀ ch ∈ List.dropWhile isPySpace c, isPySpace ch = true := by
        intro hall
        apply hc
        intro x hx
        rw [← List.takeWhile_append_dropWhile isPySpace c] at hx
        rcases List.mem_append.mp hx with htk | hdw
        · simpa using List.mem_takeWhile_imp htk
        · exact hall x hdw
      have hrc : pyRstrip c = c.takeWhile isPySpace ++ pyStrip c := by
        conv_lhs => rw [← List.takeWhile_append_dropWhile isPySpace c]
        rw [pyRstrip_append _ hxl]
        rfl
      have hinner : pyStrip ((a :: T') ++ blankLine ++ c)
          = (a :: T') ++ (blankLine ++ (c.takeWhile isPySpace ++ pyStrip c)) := by
        show pyRstrip (pyLstrip ((a :: T') ++ blankLine ++ c)) = _
        rw [List.append_assoc, pyLstrip_cons_append (pyStrip_head_false hT) T' (blankLine ++ c)]
        rw [show (a :: T') ++ (blankLine ++ c) = ((a :: T') ++ blankLine) ++ c by
          simp [List.append_assoc]]
        rw [pyRstrip_append _ hc, hrc]
        simp [List.append_assoc]
      rw [hinner] at hcombine
      refine ⟨blankLine ++ c.takeWhile isPySpace, strictSuffix, ?_, fun _ => ⟨_, rfl⟩⟩
      simpa [List.append_assoc] using hcombine

lemma fmtPrepend_eq_ok {pre : List Char} {x : FormatOutcome} {r : List Char}
    (h : fmtPrepend pre x = .ok r) : ∃ r2, x = .ok r2 ∧ r = pre ++ r2 := by
  cases x with
  | ok r2 =>
    refine ⟨r2, rfl, ?_⟩
    have h2 := h
    simp only [fmtPrepend, FormatOutcome.ok.injEq] at h2
    exact h2.symm
  | raises => simp [fmtPrepend] at h
  | unmodelled => simp [fmtPrepend] at h

lemma pyFormatAux_decomp (c : List Char) :
    ∀ (fuel : Nat) (t r : List Char), pyFormatAux c fuel t = .ok r →
      (hasField t = true → ∃ post, r = prefixBeforeField t ++ c ++ post) ∧
      (hasField t = false → r = prefixBeforeField t) := by
  intro fuel
  induction fuel with
  | zero =>
    intro t r h
    match t with
    | [] =>
      simp [pyFormatAux] at h
      subst h
      simp [hasField, prefixBeforeField]
    | _ :: _ => simp [pyFormatAux] at h
  | succ fuel ih =>
    intro t r h
    match t with
    | [] =>
      simp [pyFormatAux] at h
      subst h
      simp [hasField, prefixBeforeField]
    | [a] =>
      by_cases ha : a = '\x7b'
      · simp [pyFormatAux, ha] at h
      · by_cases ha2 : a = '\x7d'
        · simp [pyFormatAux, ha, ha2] at h
        · simp [pyFormatAux, ha, ha2] at h
          subst h
          simp [hasField, prefixBeforeField, ha]
    | a :: b :: rest =>
      by_cases ha : a = '\x7b'
      · by_cases hb : b = '\x7b'
        · subst ha hb
          simp only [pyFormatAux, if_pos rfl] at h
          obtain ⟨r2, h2, rfl⟩ := fmtPrepend_eq_ok h
          obtain ⟨ih1, ih2⟩ := ih rest r2 h2
          constructor
          · intro hf
            simp only [hasField, if_pos rfl] at hf
            obtain ⟨post, hp⟩ := ih1 hf
            exact ⟨post, by simp [prefixBeforeField, hp]⟩
          · intro hf
            simp only [hasField, if_pos rfl] at hf
            simp [prefixBeforeField, ih2 hf]
        · subst ha
          simp [pyFormatAux, hb] at h
          split at h
          · simp at h
          · split at h
            · simp at h
            · split at h
              · obtain ⟨r2, h2, rfl⟩ := fmtPrepend_eq_ok h
                constructor
                · intro _
                  exact ⟨r2, by simp [prefixBeforeField, hb]⟩
                · intro hf
                  simp [hasField, hb] at hf
              · simp at h
      · by_cases ha2 : a = '\x7d'
        · by_cases hb2 : b = '\x7d'
          · subst ha2 hb2
            simp [pyFormatAux] at h
            obtain ⟨r2, h2, rfl⟩ := fmtPrepend_eq_ok h
            obtain ⟨ih1, ih2⟩ := ih rest r2 h2
            constructor
            · intro hf
              simp only [hasField, if_pos rfl] at hf
              rw [if_neg (by decide)] at hf
              obtain ⟨post, hp⟩ := ih1 hf
              exact ⟨post, by simp [prefixBeforeField, hp]⟩
            · intro hf
              simp only [hasField, if_pos rfl] at hf
              rw [if_neg (by decide)] at hf
              simp [prefixBeforeField, ih2 hf]
          · simp [pyFormatAux, ha, ha2, hb2] at h
        · simp [pyFormatAux, ha, ha2] at h
          obtain ⟨r2, h2, rfl⟩ := fmtPrepend_eq_ok h
          obtain ⟨ih1, ih2⟩ := ih (b :: rest) r2 h2
          constructor
          · intro hf
            rw [show hasField (a :: b :: rest) = hasField (b :: rest) by
              simp [hasField, ha, ha2]] at hf
            obtain ⟨post, hp⟩ := ih1 hf
            exact ⟨post, by simp [prefixBeforeField, ha, ha2, hp]⟩
          · intro hf
            rw [show hasField (a :: b :: rest) = hasField (b :: rest) by
              simp [hasField, ha, ha2]] at hf
            simp [prefixBeforeField, ha, ha2, ih2 hf]

lemma combinePrompt_endsWith (c t : List Char) : strictSuffix <:+ combinePrompt c t := by
  by_cases hm : containsSub t marker = true
  · cases hpf : pyFormat c t with
    | ok r =>
      simp only [combinePrompt, hm, if_true, hpf]
      exact List.suffix_append r strictSuffix
    | raises =>
      simp only [combinePrompt, hm, if_true, hpf]
      exact ⟨"".data ++ t ++ blankLine ++ c, by simp [List.append_assoc]⟩
    | unmodelled =>
      simp only [combinePrompt, hm, if_true, hpf]
      exact ⟨"".data ++ t ++ blankLine ++ c, by simp [List.append_assoc]⟩
  · simp only [combinePrompt, if_neg hm]
    exact List.suffix_append _ strictSuffix

set_option maxRecDepth 8000

/-- C1: for every captured text and instruction, `_combine_prompt` yields —
when the instruction contains the literal marker — the `str.format`
substitution result when the format call returns, and the fallback
`instruction`, blank line, `captured text` concatenation when the format
call raises; and in every case the output ends with the fixed
no-commentary directive.  Both clauses are conditioned on a sound
classification (`.ok` is CPython-exact, `.raises` only where CPython
certainly raises); templates outside the modelled fragment satisfy
neither hypothesis, so nothing is asserted about them. -/
theorem combinePrompt_algorithm (captured instruction : List Char) :
    (containsSub instruction marker = true →
      (∀ r, pyFormat captured instruction = .ok r →
          combinePrompt captured instruction = r ++ strictSuffix) ∧
      (pyFormat captured instruction = .raises →
          combinePrompt captured instruction =
            instruction ++ blankLine ++ captured ++ strictSuffix)) ∧
    (∃ body, combinePrompt captured instruction = body ++ strictSuffix) := by
  constructor
  · intro hm
    constructor
    · intro r hr
      simp [combinePrompt, hm, hr]
    · intro hr
      simp [combinePrompt, hm, hr]
  · obtain ⟨u, hu⟩ := combinePrompt_endsWith captured instruction
    exact ⟨u, hu.symm⟩

/-- Witness for C1: a marker-bearing instruction where formatting returns,
and one with a trailing lone brace where formatting certainly raises and
the fallback concatenation is produced. -/
theorem combinePrompt_algorithm_witness :
    combinePrompt "zz".data "Say: \x7btext\x7d".data = "Say: zz".data ++ strictSuffix ∧
    combinePrompt "zz".data "\x7btext\x7d \x7b".data =
      "\x7btext\x7d \x7b".data ++ blankLine ++ "zz".data ++ strictSuffix := by
  constructor
  · exact ((combinePrompt_algorithm "zz".data "Say: \x7btext\x7d".data).1
      (by decide)).1 _ (by decide)
  · exact ((combinePrompt_algorithm "zz".data "\x7btext\x7d \x7b".data).1
      (by decide)).2 (by decide)

/-- C2: for every HTTP-successful response body, absent or empty `choices`
yields an empty-response error, an empty first content yields an
empty-response error, and otherwise the first choice's content is returned
exactly. -/
theorem extractResponseContent_spec (r : ApiResponse) :
    ((r.choices = none ∨ r.choices = some []) →
      ∃ e, extractResponseContent r = .error e) ∧
    (∀ c0 rest, r.choices = some (c0 :: rest) → choiceContent c0 = [] →
      ∃ e, extractResponseContent r = .error e) ∧
    (∀ c0 rest, r.choices = some (c0 :: rest) → choiceContent c0 ≠ [] →
      extractResponseContent r = .ok (choiceContent c0)) := by
  refine ⟨?_, ?_, ?_⟩
  · rintro (h | h) <;> simp [extractResponseContent, h]
  · intro c0 rest h hc
    simp [extractResponseContent, h, hc]
  · intro c0 rest h hc
    simp [extractResponseContent, h, hc]

/-- Witness for C2: the body with one "Hello" choice yields exactly "Hello";
the empty-choices body yields an error. -/
theorem extractResponseContent_spec_witness :
    extractResponseContent ⟨some [⟨some ⟨some "Hello".data⟩⟩]⟩ = .ok "Hello".data ∧
    (∃ e, extractResponseContent ⟨some []⟩ = .error e) := by
  constructor
  · have h := (extractResponseContent_spec ⟨some [⟨some ⟨some "Hello".data⟩⟩]⟩).2.2
      ⟨some ⟨some "Hello".data⟩⟩ [] rfl (by decide)
    simpa [choiceContent] using h
  · exact (extractResponseContent_spec ⟨some []⟩).1 (Or.inr rfl)

/-- C3 (amended): the submit handler indexes the insertion-ordered key list
while the highlight indexes the case-insensitively sorted display list, so
the dispatched template provably equals the highlighted one whenever the
two orders coincide; when they differ the two indexings can diverge, and
equality at an index no longer implies the orders coincide (see the
counterexample). -/
theorem promptPicker_dispatch_agrees_when_sorted (ps : List PromptEntry) (i : Nat)
    (h : dictKeys ps = sortedPromptNames ps) :
    submitDispatchedTemplate ps i = highlightedTemplate ps i := by
  unfold submitDispatchedTemplate highlightedTemplate highlightedName
  rw [h]
  cases (sortedPromptNames ps)[i]? <;> simp

/-- Witness for C3 at a stored list whose insertion order is already
case-insensitively sorted. -/
theorem promptPicker_dispatch_agrees_when_sorted_witness :
    submitDispatchedTemplate [⟨"alpha".data, "1".data⟩, ⟨"beta".data, "2".data⟩] 1 =
      highlightedTemplate [⟨"alpha".data, "1".data⟩, ⟨"beta".data, "2".data⟩] 1 :=
  promptPicker_dispatch_agrees_when_sorted _ 1 (by decide)

/-- C3 counterexample: with stored prompts named "b" then "a" sharing one
template, the dispatched and highlighted templates agree at index 0 even
though the insertion order differs from the sorted order, refuting the
claim's "only when" direction. -/
theorem promptPicker_claim_counterexample :
    submitDispatchedTemplate [⟨"b".data, "X".data⟩, ⟨"a".data, "X".data⟩] 0 =
      highlightedTemplate [⟨"b".data, "X".data⟩, ⟨"a".data, "X".data⟩] 0 ∧
    dictKeys [⟨"b".data, "X".data⟩, ⟨"a".data, "X".data⟩] ≠
      sortedPromptNames [⟨"b".data, "X".data⟩, ⟨"a".data, "X".data⟩] :=
  ⟨by decide, by decide⟩

/-- C4 counterexample: when the template file parses to a non-list value,
`load_prompts` returns the defaults but does NOT replace the file on disk,
refuting the claim's assertion that the backing file is rewritten in that
case. -/
theorem load_prompts_claim_counterexample :
    (load_prompts .parsedNonList).1 = defaultPrompts ∧
    (load_prompts .parsedNonList).2 ≠ .parsedList defaultPrompts := by
  refine ⟨rfl, ?_⟩
  intro hcontra
  simp [load_prompts] at hcontra

/-- C4 (amended): for an absent, unparsable, or non-list template file,
`load_prompts` returns exactly the two built-in defaults ("Professional
Tone" then "Fix Grammar", in that stable order); the backing file is
replaced with those defaults in the absent and unparsable cases, but left
unchanged in the parsed-non-list case. -/
theorem load_prompts_recovery (f : PromptsFile) :
    ((f = .absent ∨ f = .unparsable ∨ f = .parsedNonList) →
      (load_prompts f).1 = defaultPrompts ∧
      (load_prompts f).1.map PromptEntry.name =
        ["Professional Tone".data, "Fix Grammar".data]) ∧
    ((f = .absent ∨ f = .unparsable) → (load_prompts f).2 = .parsedList defaultPrompts) ∧
    (f = .parsedNonList → (load_prompts f).2 = .parsedNonList) := by
  refine ⟨?_, ?_, ?_⟩
  · rintro (rfl | rfl | rfl) <;> exact ⟨rfl, by decide⟩
  · rintro (rfl | rfl) <;> rfl
  · rintro rfl; rfl

/-- Witness for C4 at the absent file state. -/
theorem load_prompts_recovery_witness :
    (load_prompts .absent).1 = defaultPrompts ∧
    (load_prompts .absent).2 = .parsedList defaultPrompts :=
  ⟨((load_prompts_recovery .absent).1 (Or.inl rfl)).1,
   (load_prompts_recovery .absent).2.1 (Or.inl rfl)⟩

/-- C5 counterexample: the claim as stated fails — for captured text with a
trailing space the output does not even contain the captured text (the
final strip removes the trailing space), and for an all-whitespace
instruction no blank line precedes the captured text. -/
theorem resolver_asStated_counterexample :
    (¬ ∃ s1 s2 s3, combinePrompt "x ".data "i".data =
        s1 ++ pyStrip "i".data ++ s2 ++ "x ".data ++ s3 ∧ blankLine <:+: s2) ∧
    (¬ ∃ s1 s2 s3, combinePrompt "zz".data " ".data =
        s1 ++ pyStrip " ".data ++ s2 ++ "zz".data ++ s3 ∧ blankLine <:+: s2) := by
  constructor
  · rintro ⟨s1, s2, s3, heq, -⟩
    have hinf : "x ".data <:+: combinePrompt "x ".data "i".data :=
      ⟨s1 ++ pyStrip "i".data ++ s2, s3, by simp [heq, List.append_assoc]⟩
    exact absurd hinf (by decide)
  · rintro ⟨s1, s2, s3, heq, hb⟩
    rw [show pyStrip " ".data = [] from by decide] at heq
    have hout : combinePrompt "zz".data " ".data = 'z' :: 'z' :: strictSuffix := by decide
    have heq2 : combinePrompt "zz".data " ".data = (s1 ++ s2) ++ ("zz".data ++ s3) := by
      rw [heq]; simp [List.append_assoc]
    have hdrop : (combinePrompt "zz".data " ".data).drop (s1 ++ s2).length =
        "zz".data ++ s3 := by
      rw [heq2, List.drop_left]
    have hk : 2 ≤ (s1 ++ s2).length := by
      have hlen2 : blankLine.length ≤ s2.length := hb.length_le
      have hbl : blankLine.length = 2 := by decide
      simp only [List.length_append]
      omega
    have hz : 'z' ∈ (combinePrompt "zz".data " ".data).drop (s1 ++ s2).length := by
      rw [hdrop]
      exact List.mem_append.mpr (Or.inl (by decide))
    have h22 : (combinePrompt "zz".data " ".data).drop (s1 ++ s2).length =
        ((combinePrompt "zz".data " ".data).drop 2).drop ((s1 ++ s2).length - 2) := by
      rw [List.drop_drop]
      congr 1
      omega
    rw [h22] at hz
    have hz2 : 'z' ∈ (combinePrompt "zz".data " ".data).drop 2 := List.mem_of_mem_drop hz
    rw [hout] at hz2
    have hzs : 'z' ∈ strictSuffix := by simpa using hz2
    exact absurd hzs (by decide)

/-- C5 (amended): for every instruction lacking the marker whose trimmed
form is nonempty, the output is the trimmed instruction, then a separator
beginning with a blank line, then the captured text trimmed of surrounding
whitespace, and it ends with the fixed no-commentary directive. -/
theorem resolver_noMarker_layout (instruction captured : List Char)
    (hm : containsSub instruction marker = false)
    (hne : pyStrip instruction ≠ []) :
    ∃ s1 s2, combinePrompt captured instruction =
        pyStrip instruction ++ s1 ++ pyStrip captured ++ s2 ∧
      blankLine <+: s1 ∧ strictSuffix <:+ combinePrompt captured instruction := by
  obtain ⟨s1, s2, heq, hb⟩ := combinePrompt_noMarker captured instruction hm
  exact ⟨s1, s2, heq, hb hne, combinePrompt_endsWith captured instruction⟩

/-- Witness for C5 at a concrete marker-free instruction. -/
theorem resolver_noMarker_layout_witness :
    ∃ s1 s2, combinePrompt "hello".data "Summarize".data =
        pyStrip "Summarize".data ++ s1 ++ pyStrip "hello".data ++ s2 ∧
      blankLine <+: s1 ∧ strictSuffix <:+ combinePrompt "hello".data "Summarize".data :=
  resolver_noMarker_layout "Summarize".data "hello".data (by decide) (by decide)

/-- C6 counterexample: the resolver appends no marker; for the template
consisting only of escaped braces — which contains the marker as a
substring, so the format branch is taken — the captured text "zz" is
silently dropped from the resolved payload. -/
theorem resolver_marker_counterexample :
    containsSub "\x7b\x7btext\x7d\x7d".data marker = true ∧
    ¬ ("zz".data <:+: combinePrompt "zz".data "\x7b\x7btext\x7d\x7d".data) :=
  ⟨by decide, by decide⟩

/-- C6 (amended): the marker-appending happens in the prompt editor on
save, not in the resolver; the resolver's no-marker branch still includes
the captured text (trimmed of surrounding whitespace) by concatenation,
but a template containing the marker only inside escaped braces can drop
the captured text entirely. -/
theorem resolver_captured_included (instruction captured : List Char)
    (hm : containsSub instruction marker = false) :
    pyStrip captured <:+: combinePrompt captured instruction := by
  obtain ⟨s1, s2, heq, -⟩ := combinePrompt_noMarker captured instruction hm
  exact ⟨pyStrip instruction ++ s1, s2, by simp [heq, List.append_assoc]⟩

/-- Witness for C6 at a concrete marker-free template. -/
theorem resolver_captured_included_witness :
    pyStrip " hi ".data <:+: combinePrompt " hi ".data "Summarize".data :=
  resolver_captured_included "Summarize".data " hi ".data (by decide)

/-- C7: whenever the stored credential is absent, blank after trimming, or
equal to the placeholder sentinel, `call_openrouter_api` raises a
configuration error and issues zero network requests. -/
theorem apiClient_placeholder_guard (cfg : Config) (captured instruction : List Char)
    (h : cfg.apiKey = none ∨ effectiveApiKey cfg = [] ∨ cfg.apiKey = some placeholderKey) :
    (∃ m, callOpenrouterApi cfg captured instruction = .configError m) ∧
    issuedNetworkRequests cfg captured instruction = [] := by
  have hcond : effectiveApiKey cfg = [] ∨ effectiveApiKey cfg = placeholderKey := by
    rcases h with h | h | h
    · left
      simp only [effectiveApiKey, h, Option.getD_none]
      decide
    · left; exact h
    · right
      simp only [effectiveApiKey, h, Option.getD_some]
      decide
  have hres : callOpenrouterApi cfg captured instruction =
      .configError "OpenRouter API key missing. Set it in Settings.".data := by
    unfold callOpenrouterApi
    rw [if_pos hcond]
  exact ⟨⟨_, hres⟩, by simp [issuedNetworkRequests, hres]⟩

/-- Witness for C7 at the placeholder credential. -/
theorem apiClient_placeholder_guard_witness :
    (∃ m, callOpenrouterApi ⟨some placeholderKey⟩ "hello".data "Fix this".data =
      .configError m) ∧
    issuedNetworkRequests ⟨some placeholderKey⟩ "hello".data "Fix this".data = [] :=
  apiClient_placeholder_guard _ _ _ (Or.inr (Or.inr rfl))

/-- C8: for an absent or unparsable settings file, `load_config` returns
the default record holding the placeholder credential, replaces the file
on disk with that default, and an immediate second `load_config` returns
the same placeholder credential. -/
theorem load_config_recovery (f : ConfigFile)
    (h : f = .absent ∨ f = .unparsable) :
    (load_config f).1 = defaultConfig ∧
    (load_config f).1.apiKey = some placeholderKey ∧
    (load_config f).2 = .parsed defaultConfig ∧
    (load_config (load_config f).2).1.apiKey = some placeholderKey := by
  rcases h with rfl | rfl <;> exact ⟨rfl, rfl, rfl, rfl⟩

/-- Witness for C8 at the unparsable file state. -/
theorem load_config_recovery_witness :
    (load_config .unparsable).1 = defaultConfig ∧
    (load_config .unparsable).1.apiKey = some placeholderKey ∧
    (load_config .unparsable).2 = .parsed defaultConfig ∧
    (load_config (load_config .unparsable).2).1.apiKey = some placeholderKey :=
  load_config_recovery .unparsable (Or.inr rfl)

/-- C9 (amended): for every template inside the modelled fragment — all
replacement fields are the plain `text` field, where substitution is
verbatim — whose format scan reaches an actual replacement field (not
merely containing the marker as a substring inside escaped braces),
resolution inserts the captured text at the rendered field position, and
extracting that segment returns the captured text unchanged.  Templates
whose fields carry conversions or format specs insert a transformed value
(for example a repr) in CPython, so the round-trip is restricted to plain
fields; those templates never satisfy the `.ok` hypothesis. -/
theorem resolver_roundTrip_extract (t c r : List Char)
    (h : pyFormat c t = .ok r) (hf : hasField t = true) :
    (r.drop (prefixBeforeField t).length).take c.length = c := by
  obtain ⟨post, hp⟩ := (pyFormatAux_decomp c t.length t r h).1 hf
  subst hp
  rw [List.append_assoc, List.drop_left, List.take_left]

/-- Witness for C9 at a concrete template with one field. -/
theorem resolver_roundTrip_extract_witness :
    (("AzzB".data.drop (prefixBeforeField "A\x7btext\x7dB".data).length).take
      "zz".data.length) = "zz".data :=
  resolver_roundTrip_extract "A\x7btext\x7dB".data "zz".data "AzzB".data
    (by decide) (by decide)

/-- C9 counterexample: the template of escaped braces contains the marker
as a substring and formats successfully, yet no segment equal to the
captured text is inserted at the marker position, so extraction does not
return the captured text. -/
theorem roundTrip_claim_counterexample :
    containsSub "\x7b\x7btext\x7d\x7d".data marker = true ∧
    pyFormat "zz".data "\x7b\x7btext\x7d\x7d".data = .ok "\x7btext\x7d".data ∧
    (("\x7btext\x7d".data.drop
        (prefixBeforeField "\x7b\x7btext\x7d\x7d".data).length).take
      "zz".data.length) ≠ "zz".data :=
  ⟨by decide, by decide, by decide⟩

/-- C10: the one-shot guard starts unset each cycle, a first `_auto_paste`
issues exactly one keystroke sequence, a second call in the same cycle
issues none further, and `_auto_paste` is idempotent on every state. -/
theorem autoPaste_once :
    initPasteState.pasteExecuted = false ∧
    (autoPaste initPasteState).pasteKeystrokes = 1 ∧
    (autoPaste (autoPaste initPasteState)).pasteKeystrokes = 1 ∧
    (∀ s : PasteState, autoPaste (autoPaste s) = autoPaste s) := by
  refine ⟨rfl, rfl, rfl, ?_⟩
  intro s
  by_cases hs : s.pasteExecuted
  · simp [autoPaste, hs]
  · simp [autoPaste, hs]
